import Mathlib

/-!
# Verification of the AIBOS Tesseract OCR service (`src/ocr-service/main.py`)

Shallow embedding of the request-handling and result-shaping logic of the
OCR HTTP service. The service delegates recognition to an external engine
(pytesseract) and a PDF rasterizer (pdf2image); those collaborators are
modelled at their interface boundary, faithful to how `main.py` consumes
them. All arithmetic that Python performs on floats is modelled exactly
over `ℚ`.
-/

set_option autoImplicit false

namespace OcrService

/-! ## Data model -/

/-- A decoded raster image, as produced by PIL `Image.open` or by
`pdf2image.convert_from_bytes`. Only the attributes `main.py` reads
(`image.size`, `image.mode`) are modelled. -/
structure RasterImage where
  width : Nat
  height : Nat
  mode : String
deriving DecidableEq

/-- One column-slice of the pytesseract `image_to_data(..., Output.DICT)`
result: the values at one index `i` across the parallel arrays
`text`, `conf`, `left`, `top`, `width`, `height`, `level`.
Confidences are integers with `-1` the "no detection" sentinel. -/
structure TessToken where
  text : String
  conf : ℤ
  left : ℤ
  top : ℤ
  width : ℤ
  height : ℤ
  level : ℤ
deriving DecidableEq

/-- The structured recognition result: the parallel arrays of
`image_to_data`, viewed row-wise (index `i` of every array gives row `i`). -/
abbrev TessData := List TessToken

/-- Abstract content of uploaded bytes. We track only what the two external
decoders can extract from them: the page sequence seen by the PDF
rasterizer (empty for a malformed or zero-page document), and the result of
decoding the bytes directly as a raster image (`Except.error` when PIL
would raise, carrying the exception message). -/
structure FileBytes where
  pdfPages : List RasterImage
  imageDecode : Except String RasterImage

/-- A multipart upload as FastAPI presents it: filename, declared
content type, and the raw bytes. -/
structure UploadedFile where
  filename : String
  content_type : String
  bytes : FileBytes

/-- The external OCR engine, modelled at its interface boundary: each call
either returns a result or fails with an exception message. `main.py`
always passes the fixed configuration `--psm 1`, so the configuration is
not a parameter here. -/
structure TessEngine where
  image_to_string : RasterImage → Except String String
  image_to_data : RasterImage → Except String TessData

/-! ## Rounding (model of Python `round(x, 2)`)

Python's `round(x, 2)` rounds to the nearest multiple of 1/100, breaking
ties toward the even multiple (banker's rounding). We model it exactly
over `ℚ`. -/

/-- Round a rational to the nearest integer, ties to even. -/
def roundHalfEven (q : ℚ) : ℤ :=
  let n : ℤ := ⌊q⌋
  let frac : ℚ := q - (n : ℚ)
  if frac < 1/2 then n
  else if 1/2 < frac then n + 1
  else if n % 2 = 0 then n else n + 1

/-- Model of Python `round(x, 2)`: round to the nearest multiple of 1/100,
ties to even. -/
def pyRound2 (q : ℚ) : ℚ := (roundHalfEven (q * 100) : ℚ) / 100

/-- Truncation to two decimal places (toward zero), as the spec's
"truncated to two decimal places" reads. This is NOT what the code does;
it is here to compare against `pyRound2`. -/
def truncate2 (q : ℚ) : ℚ :=
  (if 0 ≤ q then (⌊q * 100⌋ : ℚ) else -(⌊-(q * 100)⌋ : ℚ)) / 100

/-! ## Aggregate confidence (`main.py` lines 79-80, 95) -/

/-- Line 79: `confidences = [c for c in data['conf'] if c != -1]`. -/
def confidences_filter (conf : List ℤ) : List ℤ :=
  conf.filter (fun c => c ≠ -1)

/-- Line 80: `avg_confidence = sum(confidences) / len(confidences) if
confidences else 0`. -/
def avg_confidence (conf : List ℤ) : ℚ :=
  if confidences_filter conf ≠ [] then
    ((confidences_filter conf).sum : ℚ) / ((confidences_filter conf).length : ℚ)
  else 0

/-- Line 95: the `"confidence"` field of the response,
`round(avg_confidence, 2)`. -/
def reported_confidence (conf : List ℤ) : ℚ :=
  pyRound2 (avg_confidence conf)

/-- Spec-side definition: the arithmetic mean of the confidences strictly
not equal to `-1`. Only meaningful when at least one such value exists. -/
def mean_nonsentinel (conf : List ℤ) : ℚ :=
  ((conf.filter (fun c => c ≠ -1)).sum : ℚ) /
    ((conf.filter (fun c => c ≠ -1)).length : ℚ)

/-! ## Derived flags over the plain text (`main.py` lines 83-84) -/

/-- Model of CPython `str.isdigit` for one character, over the Latin-1
range: there the characters with Unicode `Numeric_Type` Decimal or Digit
are exactly the decimal digits `0`-`9` (code points 48-57) and the
superscript digits `²` `³` `¹` (code points 178, 179, 185). Code points
above `0xFF` are not modelled (the further Unicode digit characters there
do not affect the theorems below). -/
def pyIsDigit (c : Char) : Bool :=
  decide ((48 ≤ c.toNat ∧ c.toNat ≤ 57) ∨ c.toNat = 178 ∨ c.toNat = 179 ∨ c.toNat = 185)

/-- Line 83: `has_numbers = any(c.isdigit() for c in text)`. -/
def has_numbers (text : String) : Bool :=
  text.toList.any pyIsDigit

/-- Line 84: `has_currency = any(c in '$£€¥' for c in text)`. -/
def has_currency (text : String) : Bool :=
  text.toList.any (fun c => c ∈ ['$', '£', '€', '¥'])

/-! ## Derived counts over the plain text (`main.py` lines 98-100)

Python iterates strings by code point; we model a Python `str` value as a
Lean `String` and compute on its `toList` of characters. Python's notion
of whitespace for `str.split()`/`str.strip()` is modelled by
`Char.isWhitespace` (space, tab, CR, LF). -/

/-- Model of Python `text.split()` (no separator argument): split on runs
of whitespace, with no empty strings in the result. `cur` accumulates the
current in-progress word, in reverse. -/
def wordsAux : List Char → List Char → List (List Char)
  | cur, [] => if cur.isEmpty then [] else [cur.reverse]
  | cur, c :: cs =>
    if c.isWhitespace then
      if cur.isEmpty then wordsAux [] cs
      else cur.reverse :: wordsAux [] cs
    else wordsAux (c :: cur) cs

/-- Python `text.split()`. -/
def py_split_ws (text : String) : List (List Char) :=
  wordsAux [] text.toList

/-- Model of Python `text.split('\n')`: cut at every newline character;
adjacent, leading and trailing newlines contribute empty segments, and
the (possibly empty) trailing segment after the last newline is kept. -/
def splitNl : List Char → List (List Char)
  | [] => [[]]
  | c :: cs =>
    let r := splitNl cs
    if c = '\n' then [] :: r
    else (c :: r.headI) :: r.tail

/-- Line 98: `"char_count": len(text)` (Python `len` counts code points). -/
def char_count (text : String) : Nat := text.length

/-- Line 99: `"word_count": len(text.split())`. -/
def word_count (text : String) : Nat := (py_split_ws text).length

/-- Line 100: `"line_count": len(text.split('\n'))`. -/
def line_count (text : String) : Nat := (splitNl text.toList).length

/-- Spec-side count of whitespace-delimited tokens: the number of maximal
runs of non-whitespace characters. `afterWs` records whether the previous
position was a run boundary (start of string or a whitespace character);
a token is counted at each non-whitespace character that follows a
boundary. -/
def countRuns : Bool → List Char → Nat
  | _, [] => 0
  | afterWs, c :: cs =>
    if c.isWhitespace then countRuns true cs
    else (if afterWs then 1 else 0) + countRuns false cs

/-! ## Input normalization (`main.py` lines 56-64 and 128-133)

Both endpoints contain the same (textually duplicated) decode logic:
branch on `file.content_type == "application/pdf"`, rasterize
`first_page=1, last_page=1` and take `images[0]` on the PDF branch, else
`Image.open(io.BytesIO(file_bytes))`. -/

/-- Model of `pdf2image.convert_from_bytes(file_bytes, first_page=a,
last_page=b)`: the sub-sequence of pages `a..b` (1-based, inclusive). -/
def convert_from_bytes (b : FileBytes) (first_page last_page : Nat) : List RasterImage :=
  (b.pdfPages.take last_page).drop (first_page - 1)

/-- Lines 56-64: the decode step of the `/ocr` handler. `images[0]` on an
empty list raises `IndexError: list index out of range`. -/
def normalize_ocr (f : UploadedFile) : Except String RasterImage :=
  if f.content_type = "application/pdf" then
    match convert_from_bytes f.bytes 1 1 with
    | [] => Except.error "list index out of range"
    | image :: _ => Except.ok image
  else f.bytes.imageDecode

/-- Lines 128-133: the decode step of the `/ocr-with-layout` handler
(textually identical logic to lines 56-64). -/
def normalize_layout (f : UploadedFile) : Except String RasterImage :=
  if f.content_type = "application/pdf" then
    match convert_from_bytes f.bytes 1 1 with
    | [] => Except.error "list index out of range"
    | image :: _ => Except.ok image
  else f.bytes.imageDecode

/-! ## The `/ocr` endpoint (`main.py` lines 39-116) -/

/-- The `"metadata"` object of a successful `/ocr` response
(lines 97-104). -/
structure OcrMetadata where
  char_count : Nat
  word_count : Nat
  line_count : Nat
  has_numbers : Bool
  has_currency : Bool
  image_size : String
deriving DecidableEq

/-- The body of a successful `/ocr` response (lines 92-105); the constant
`"success": true` field is omitted. -/
structure OcrSuccess where
  text : String
  confidence : ℚ
  method : String
  metadata : OcrMetadata
deriving DecidableEq

/-- The `detail` object of the HTTP 500 error raised by `/ocr`
(lines 109-116). -/
structure ErrorDetail where
  error : String
  method : String
  file : String
deriving DecidableEq

/-- The `/ocr` handler (lines 39-116): decode, invoke the engine twice,
shape the aggregate result; any exception at any stage is caught by the
single `except` block and turned into the HTTP 500 error detail carrying
the exception message, the method name and the uploaded filename. -/
def perform_ocr (eng : TessEngine) (f : UploadedFile) : Except ErrorDetail OcrSuccess :=
  match normalize_ocr f with
  | Except.error e => Except.error ⟨e, "tesseract", f.filename⟩
  | Except.ok image =>
    match eng.image_to_string image with
    | Except.error e => Except.error ⟨e, "tesseract", f.filename⟩
    | Except.ok text =>
      match eng.image_to_data image with
      | Except.error e => Except.error ⟨e, "tesseract", f.filename⟩
      | Except.ok data =>
        Except.ok
          { text := text
            confidence := reported_confidence (data.map (fun t => t.conf))
            method := "tesseract"
            metadata :=
              { char_count := char_count text
                word_count := word_count text
                line_count := line_count text
                has_numbers := has_numbers text
                has_currency := has_currency text
                image_size := toString image.width ++ "x" ++ toString image.height } }

/-! ## The `/ocr-with-layout` endpoint (`main.py` lines 118-172) -/

/-- The `bbox` object of one layout entry (lines 149-154). -/
structure BBox where
  left : ℤ
  top : ℤ
  width : ℤ
  height : ℤ
deriving DecidableEq

/-- One element of the `results` array (lines 146-156). -/
structure LayoutEntry where
  text : String
  confidence : ℤ
  bbox : BBox
  level : ℤ
deriving DecidableEq

/-- Model of Python `s.strip()` (no argument): remove leading and trailing
whitespace characters. Computed over the character list. -/
def py_strip (s : String) : List Char :=
  ((s.toList.dropWhile Char.isWhitespace).reverse.dropWhile Char.isWhitespace).reverse

/-- The filter of lines 145: keep a token iff its confidence is not `-1`
and its text, stripped of surrounding whitespace, is non-empty (Python
string truthiness of `data['text'][i].strip()`). -/
def retained (t : TessToken) : Prop :=
  t.conf ≠ -1 ∧ py_strip t.text ≠ []

instance retained_decidable : DecidablePred retained := fun t => by
  unfold retained; infer_instance

/-- The entry appended for a retained token (lines 146-156): the original
(unstripped) text, the confidence, the bounding box and the level. -/
def mkLayoutEntry (t : TessToken) : LayoutEntry :=
  { text := t.text
    confidence := t.conf
    bbox := { left := t.left, top := t.top, width := t.width, height := t.height }
    level := t.level }

/-- The loop of lines 143-156: walk the parallel arrays in index order and
append an entry for each retained token. -/
def layout_results : TessData → List LayoutEntry
  | [] => []
  | t :: rest =>
    if retained t then mkLayoutEntry t :: layout_results rest
    else layout_results rest

/-- The body of a successful `/ocr-with-layout` response (lines 160-165);
the constant `"success": true` field is omitted. -/
structure LayoutSuccess where
  results : List LayoutEntry
  method : String
  total_words : Nat
deriving DecidableEq

/-- The `detail` object of the HTTP 500 error raised by `/ocr-with-layout`
(lines 169-172). -/
structure LayoutError where
  error : String
deriving DecidableEq

/-- The `/ocr-with-layout` handler (lines 118-172). -/
def ocr_with_layout (eng : TessEngine) (f : UploadedFile) : Except LayoutError LayoutSuccess :=
  match normalize_layout f with
  | Except.error e => Except.error ⟨e⟩
  | Except.ok image =>
    match eng.image_to_data image with
    | Except.error e => Except.error ⟨e⟩
    | Except.ok data =>
      Except.ok
        { results := layout_results data
          method := "tesseract-layout"
          total_words := (layout_results data).length }

/-! ## Helper lemmas -/

theorem roundHalfEven_eq_of_lt_half (q : ℚ) (n : ℤ) (h1 : (n : ℚ) ≤ q)
    (h2 : q - (n : ℚ) < 1/2) : roundHalfEven q = n := by
  have hfl : ⌊q⌋ = n := Int.floor_eq_iff.mpr ⟨h1, by linarith [Rat.add_comm (n:ℚ) 1]⟩
  unfold roundHalfEven
  rw [hfl, if_pos (by linarith)]

theorem roundHalfEven_eq_of_half_lt (q : ℚ) (n : ℤ) (h1 : (n : ℚ) ≤ q)
    (h3 : q < (n : ℚ) + 1) (h2 : 1/2 < q - (n : ℚ)) : roundHalfEven q = n + 1 := by
  have hfl : ⌊q⌋ = n := Int.floor_eq_iff.mpr ⟨h1, by linarith [Rat.add_comm (n:ℚ) 1]⟩
  unfold roundHalfEven
  rw [hfl, if_neg (by linarith), if_pos (by linarith)]

theorem pyRound2_zero : pyRound2 0 = 0 := by
  unfold pyRound2
  rw [show ((0:ℚ) * 100) = 0 from by norm_num,
    roundHalfEven_eq_of_lt_half 0 0 (by norm_num) (by norm_num)]
  norm_num

theorem confidences_filter_ne_nil (conf : List ℤ) (h : ∃ c ∈ conf, c ≠ -1) :
    confidences_filter conf ≠ [] := by
  obtain ⟨c, hc, hne⟩ := h
  unfold confidences_filter
  intro hnil
  exact (List.filter_eq_nil_iff.mp hnil) c hc (by simpa using hne)

theorem reported_eq_round_mean (conf : List ℤ) (h : ∃ c ∈ conf, c ≠ -1) :
    reported_confidence conf = pyRound2 (mean_nonsentinel conf) := by
  unfold reported_confidence avg_confidence mean_nonsentinel
  rw [if_pos (confidences_filter_ne_nil conf h)]
  rfl

/-! ## Claim theorems -/

/-- C3: for every confidence list containing at least one value not equal
to `-1`, the reported aggregate confidence equals the mean of the
non-sentinel values rounded to 2 decimal places; for an all-sentinel or
empty confidence list it is exactly 0. -/
theorem aggregate_confidence_mean_or_zero (conf : List ℤ) :
    ((∃ c ∈ conf, c ≠ -1) →
      reported_confidence conf = pyRound2 (mean_nonsentinel conf)) ∧
    ((∀ c ∈ conf, c = -1) → reported_confidence conf = 0) := by
  constructor
  · exact reported_eq_round_mean conf
  · intro hall
    have hnil : confidences_filter conf = [] := by
      unfold confidences_filter
      exact List.filter_eq_nil_iff.mpr (fun c hc => by simpa using hall c hc)
    unfold reported_confidence avg_confidence
    rw [if_neg (by simp [hnil]), pyRound2_zero]

/-- Witness for C3 at the concrete lists `[95, -1]` and `[-1, -1]`. -/
theorem aggregate_confidence_mean_or_zero_witness :
    reported_confidence [95, -1] = pyRound2 (mean_nonsentinel [95, -1]) ∧
    reported_confidence [-1, -1] = 0 :=
  ⟨(aggregate_confidence_mean_or_zero [95, -1]).1 ⟨95, by simp, by decide⟩,
   (aggregate_confidence_mean_or_zero [-1, -1]).2 (by decide)⟩

/-- C1 counterexample: the claim says the reported confidence is the mean
of the non-sentinel confidences *truncated* to two decimal places, but on
the confidence list `[2, 3, 3]` the code reports `round(8/3, 2) = 2.67`
while truncation gives `2.66`. -/
theorem confidence_truncation_cex :
    reported_confidence [2, 3, 3] ≠ truncate2 (mean_nonsentinel [2, 3, 3]) := by
  have havg : avg_confidence [2, 3, 3] = 8/3 := by
    unfold avg_confidence
    rw [if_pos (by decide), show confidences_filter [2, 3, 3] = [2, 3, 3] from by decide]
    norm_num
  have h1 : reported_confidence [2, 3, 3] = 267/100 := by
    unfold reported_confidence pyRound2
    rw [havg, show ((8:ℚ)/3 * 100) = 800/3 from by norm_num,
      roundHalfEven_eq_of_half_lt (800/3) 266 (by norm_num) (by norm_num) (by norm_num)]
    norm_num
  have hm : mean_nonsentinel [2, 3, 3] = 8/3 := by
    unfold mean_nonsentinel
    rw [show List.filter (fun c => decide (c ≠ -1)) ([2, 3, 3] : List ℤ) = [2, 3, 3] from
      by decide]
    norm_num
  have h2 : truncate2 (mean_nonsentinel [2, 3, 3]) = 266/100 := by
    unfold truncate2
    rw [hm, if_pos (by norm_num), show ((8:ℚ)/3 * 100) = 800/3 from by norm_num,
      show ⌊(800:ℚ)/3⌋ = 266 from Int.floor_eq_iff.mpr (by norm_num)]
    norm_num
  rw [h1, h2]
  norm_num

/-- C1 (amended): for every recognition result whose confidence list
contains at least one value not equal to `-1`, the reported confidence
equals the arithmetic mean of the confidences strictly not equal to `-1`,
*rounded* (half-to-even) to two decimal places. -/
theorem confidence_is_rounded_mean (conf : List ℤ) (h : ∃ c ∈ conf, c ≠ -1) :
    reported_confidence conf = pyRound2 (mean_nonsentinel conf) :=
  reported_eq_round_mean conf h

/-- Witness for C1 (amended) at the concrete list `[2, 3, 3]`. -/
theorem confidence_is_rounded_mean_witness :
    reported_confidence [2, 3, 3] = pyRound2 (mean_nonsentinel [2, 3, 3]) :=
  confidence_is_rounded_mean [2, 3, 3] ⟨2, by simp, by decide⟩

/-! ## Layout shaper lemmas -/

/-- Reconstruct the source token of a layout entry (the entry carries
every field of the token, so this is a one-sided inverse of
`mkLayoutEntry`). -/
def entryToken (e : LayoutEntry) : TessToken :=
  { text := e.text, conf := e.confidence, left := e.bbox.left, top := e.bbox.top,
    width := e.bbox.width, height := e.bbox.height, level := e.level }

theorem entryToken_mkLayoutEntry (t : TessToken) : entryToken (mkLayoutEntry t) = t := rfl

theorem confidences_filter_cons (c : ℤ) (cs : List ℤ) :
    confidences_filter (c :: cs) =
      if c ≠ -1 then c :: confidences_filter cs else confidences_filter cs := by
  unfold confidences_filter
  by_cases h : c = -1 <;> simp [List.filter_cons, h]

theorem layout_results_eq_filter_map (data : TessData) :
    layout_results data =
      (data.filter (fun t => decide (retained t))).map mkLayoutEntry := by
  induction data with
  | nil => rfl
  | cons t rest ih =>
    by_cases h : retained t
    · simp [layout_results, h, List.filter_cons, ih]
    · simp [layout_results, h, List.filter_cons, ih]

theorem layout_results_map_entryToken (data : TessData) :
    (layout_results data).map entryToken = data.filter (fun t => decide (retained t)) := by
  rw [layout_results_eq_filter_map, List.map_map]
  have h : entryToken ∘ mkLayoutEntry = id := funext entryToken_mkLayoutEntry
  rw [h, List.map_id]

/-- C2: the layout shaper's output contains exactly the tokens whose
confidence is not `-1` and whose trimmed text is non-empty; its length
equals the count of such tokens; the original index order of the tokens
is preserved (the reconstructed token sequence is the in-order filter of
the input, hence a sublist of it). -/
theorem layout_filter_exact (data : TessData) :
    (layout_results data).length = data.countP (fun t => decide (retained t)) ∧
    (layout_results data).map entryToken = data.filter (fun t => decide (retained t)) ∧
    ((layout_results data).map entryToken).Sublist data := by
  refine ⟨?_, layout_results_map_entryToken data, ?_⟩
  · rw [layout_results_eq_filter_map, List.length_map, List.countP_eq_length_filter]
  · rw [layout_results_map_entryToken]
    exact List.filter_sublist data

/-! ## Concrete sample values (used by witnesses) -/

/-- A sample decoded image. -/
def sampleImage : RasterImage := { width := 100, height := 50, mode := "RGB" }

/-- A retained token: non-sentinel confidence, non-blank (but untrimmed)
text. -/
def sampleToken : TessToken :=
  { text := " INVOICE ", conf := 95, left := 1, top := 2, width := 3, height := 4, level := 5 }

/-- A token with whitespace-only text but non-sentinel confidence: counted
in the aggregate average, excluded from layout output. -/
def wsToken : TessToken :=
  { text := "   ", conf := 50, left := 0, top := 0, width := 0, height := 0, level := 5 }

/-- A sentinel token: no detection. -/
def sentinelToken : TessToken :=
  { text := "", conf := -1, left := 0, top := 0, width := 0, height := 0, level := 1 }

/-- A sample structured recognition result. -/
def sampleData : TessData := [sampleToken, wsToken, sentinelToken]

/-- A sample engine that always succeeds with fixed output. -/
def sampleEngine : TessEngine :=
  { image_to_string := fun _ => Except.ok "INVOICE 100"
    image_to_data := fun _ => Except.ok sampleData }

/-- A sample PNG upload whose bytes decode to `sampleImage`. -/
def sampleFile : UploadedFile :=
  { filename := "doc.png", content_type := "image/png"
    bytes := { pdfPages := [], imageDecode := Except.ok sampleImage } }

/-- C8: every emitted layout entry carries the original untrimmed text of
some retained input token, together with its confidence, bounding box and
hierarchy level; and the reported `total_words` of a successful
`/ocr-with-layout` response equals the number of entries in `results`. -/
theorem layout_entries_fields (data : TessData) (eng : TessEngine) (f : UploadedFile) :
    (∀ e ∈ layout_results data, ∃ t ∈ data, retained t ∧
      e.text = t.text ∧ e.confidence = t.conf ∧
      e.bbox.left = t.left ∧ e.bbox.top = t.top ∧
      e.bbox.width = t.width ∧ e.bbox.height = t.height ∧ e.level = t.level) ∧
    (∀ res, ocr_with_layout eng f = Except.ok res →
      res.total_words = res.results.length) := by
  constructor
  · intro e he
    rw [layout_results_eq_filter_map] at he
    obtain ⟨t, htf, rfl⟩ := List.mem_map.mp he
    obtain ⟨htd, htr⟩ := List.mem_filter.mp htf
    exact ⟨t, htd, of_decide_eq_true htr, rfl, rfl, rfl, rfl, rfl, rfl, rfl⟩
  · intro res hres
    unfold ocr_with_layout at hres
    split at hres
    · exact absurd hres (by simp)
    · split at hres
      · exact absurd hres (by simp)
      · cases hres
        rfl

/-- Witness for C8 at `sampleData`, `sampleEngine`, `sampleFile`. -/
theorem layout_entries_fields_witness :
    (∃ t ∈ sampleData, retained t ∧
      (mkLayoutEntry sampleToken).text = t.text ∧
      (mkLayoutEntry sampleToken).confidence = t.conf ∧
      (mkLayoutEntry sampleToken).bbox.left = t.left ∧
      (mkLayoutEntry sampleToken).bbox.top = t.top ∧
      (mkLayoutEntry sampleToken).bbox.width = t.width ∧
      (mkLayoutEntry sampleToken).bbox.height = t.height ∧
      (mkLayoutEntry sampleToken).level = t.level) ∧
    ({ results := layout_results sampleData, method := "tesseract-layout",
       total_words := (layout_results sampleData).length } : LayoutSuccess).total_words =
      ({ results := layout_results sampleData, method := "tesseract-layout",
         total_words := (layout_results sampleData).length } : LayoutSuccess).results.length :=
  ⟨(layout_entries_fields sampleData sampleEngine sampleFile).1
      (mkLayoutEntry sampleToken) (by decide),
   (layout_entries_fields sampleData sampleEngine sampleFile).2
      { results := layout_results sampleData, method := "tesseract-layout",
        total_words := (layout_results sampleData).length } rfl⟩

/-- C10: the aggregate average is computed over every token whose
confidence is not `-1` regardless of its text, so the averaged confidence
list always contains the confidences of the layout-retained tokens as an
in-order sublist, and can strictly exceed them (e.g. on a whitespace-only
token with confidence 50). -/
theorem average_includes_nonlayout_tokens :
    (∀ (data : TessData) (t : TessToken), t ∈ data → t.conf ≠ -1 →
      t.conf ∈ confidences_filter (data.map (fun t => t.conf))) ∧
    (∀ data : TessData,
      ((layout_results data).map (fun e => e.confidence)).Sublist
        (confidences_filter (data.map (fun t => t.conf)))) ∧
    (∃ data : TessData,
      ((layout_results data).map (fun e => e.confidence)).length <
        (confidences_filter (data.map (fun t => t.conf))).length) := by
  refine ⟨?_, ?_, ⟨[wsToken], by decide⟩⟩
  · intro data t ht hconf
    unfold confidences_filter
    exact List.mem_filter.mpr ⟨List.mem_map_of_mem _ ht, by simpa using hconf⟩
  · intro data
    induction data with
    | nil => simp [layout_results, confidences_filter]
    | cons t rest ih =>
      rw [show (t :: rest).map (fun t => t.conf) = t.conf :: rest.map (fun t => t.conf)
          from rfl,
        confidences_filter_cons]
      by_cases hr : retained t
      · rw [if_pos hr.1,
          show layout_results (t :: rest) = mkLayoutEntry t :: layout_results rest
            from by simp [layout_results, hr]]
        exact List.Sublist.cons₂ _ ih
      · by_cases hc : t.conf = -1
        · rw [if_neg (not_not_intro hc),
            show layout_results (t :: rest) = layout_results rest
              from by simp [layout_results, hr]]
          exact ih
        · rw [if_pos hc,
            show layout_results (t :: rest) = layout_results rest
              from by simp [layout_results, hr]]
          exact List.Sublist.cons _ ih

/-- Witness for C10: the whitespace-only token's confidence 50 is in the
averaged list. -/
theorem average_includes_nonlayout_tokens_witness :
    (50 : ℤ) ∈ confidences_filter ([wsToken].map (fun t => t.conf)) :=
  average_includes_nonlayout_tokens.1 [wsToken] wsToken (by simp) (by decide)

/-! ## Claims C4 and C5: derived flags and counts -/

/-- C4 counterexample: the claim says `has_numbers` is true iff the text
contains one of the characters `0`-`9` (code points 48-57), but Python
`str.isdigit` also accepts other Unicode digits: on the text `"²"`
(superscript two, U+00B2) the code sets `has_numbers` to true although
the text contains no character in `0`-`9`. -/
theorem has_numbers_ascii_iff_cex :
    has_numbers "²" = true ∧
    ∀ c ∈ "²".toList, ¬(48 ≤ c.toNat ∧ c.toNat ≤ 57) := by decide

/-- C4 (amended): `has_numbers` is true iff the text contains at least one
character that Python `str.isdigit` classifies as a digit; in particular
it is true whenever the text contains one of `0`-`9`, and false whenever
every character is a non-digit ASCII character (letters, punctuation,
whitespace) — but it can also be true on texts with no `0`-`9` at all,
such as `"²"`. -/
theorem has_numbers_pydigit_iff (t : String) :
    (has_numbers t = true ↔ ∃ c ∈ t.toList, pyIsDigit c = true) ∧
    ((∃ c ∈ t.toList, 48 ≤ c.toNat ∧ c.toNat ≤ 57) → has_numbers t = true) ∧
    ((∀ c ∈ t.toList, c.toNat < 128 ∧ ¬(48 ≤ c.toNat ∧ c.toNat ≤ 57)) →
      has_numbers t = false) := by
  refine ⟨by simp [has_numbers], ?_, ?_⟩
  · rintro ⟨c, hc, h48, h57⟩
    unfold has_numbers
    rw [List.any_eq_true]
    exact ⟨c, hc, by unfold pyIsDigit; rw [decide_eq_true_eq]; exact Or.inl ⟨h48, h57⟩⟩
  · intro hall
    unfold has_numbers
    rw [List.any_eq_false]
    intro c hc
    obtain ⟨hlt, hnd⟩ := hall c hc
    unfold pyIsDigit
    simp only [decide_eq_true_eq]
    omega

/-- Witness for C4 (amended) at the texts `"A1"` and `"abc. "`. -/
theorem has_numbers_pydigit_iff_witness :
    has_numbers "A1" = true ∧ has_numbers "abc. " = false :=
  ⟨(has_numbers_pydigit_iff "A1").2.1 ⟨'1', by decide, by decide⟩,
   (has_numbers_pydigit_iff "abc. ").2.2 (by decide)⟩

theorem wordsAux_length (l : List Char) :
    ∀ cur, (wordsAux cur l).length =
      if cur.isEmpty then countRuns true l else 1 + countRuns false l := by
  induction l with
  | nil =>
    intro cur
    by_cases h : cur.isEmpty <;> simp [wordsAux, countRuns, h]
  | cons c cs ih =>
    intro cur
    by_cases hw : c.isWhitespace
    · by_cases h : cur.isEmpty
      · simp [wordsAux, countRuns, hw, h, ih []]
      · simp [wordsAux, countRuns, hw, h, ih []]
        omega
    · by_cases h : cur.isEmpty
      · simp [wordsAux, countRuns, hw, h, ih (c :: cur)]
      · simp [wordsAux, countRuns, hw, h, ih (c :: cur)]

theorem splitNl_ne_nil (l : List Char) : splitNl l ≠ [] := by
  cases l with
  | nil => simp [splitNl]
  | cons c cs => by_cases h : c = '\n' <;> simp [splitNl, h]

theorem splitNl_length (l : List Char) :
    (splitNl l).length = l.count '\n' + 1 := by
  induction l with
  | nil => simp [splitNl]
  | cons c cs ih =>
    have hpos : 1 ≤ (splitNl cs).length :=
      Nat.pos_of_ne_zero (fun h0 =>
        splitNl_ne_nil cs (List.length_eq_zero.mp h0))
    by_cases h : c = '\n'
    · simp [splitNl, h, List.count_cons, ih]
    · simp only [splitNl, if_neg h, List.length_cons, List.length_tail,
        List.count_cons, beq_iff_eq, if_neg h]
      omega

/-- C5: `char_count` is the raw code-point length of the text,
`word_count` is the number of whitespace-delimited tokens (maximal
non-whitespace runs), and `line_count` is the number of newline-delimited
segments, counting the (possibly empty) trailing segment after the last
newline — i.e. the number of newline characters plus one. -/
theorem metadata_counts_spec (t : String) :
    char_count t = t.length ∧
    word_count t = countRuns true t.toList ∧
    line_count t = t.toList.count '\n' + 1 := by
  refine ⟨rfl, ?_, splitNl_length t.toList⟩
  unfold word_count py_split_ws
  rw [wordsAux_length t.toList []]
  simp

/-! ## Claims C6, C9: input normalization branches -/

theorem normalize_ocr_pdf (f : UploadedFile) (h : f.content_type = "application/pdf") :
    normalize_ocr f = (match f.bytes.pdfPages.head? with
      | none => Except.error "list index out of range"
      | some p => Except.ok p) := by
  unfold normalize_ocr convert_from_bytes
  rw [if_pos h]
  cases hp : f.bytes.pdfPages with
  | nil => simp [hp]
  | cons p rest => simp [hp]

theorem normalize_layout_pdf (f : UploadedFile) (h : f.content_type = "application/pdf") :
    normalize_layout f = (match f.bytes.pdfPages.head? with
      | none => Except.error "list index out of range"
      | some p => Except.ok p) := by
  unfold normalize_layout convert_from_bytes
  rw [if_pos h]
  cases hp : f.bytes.pdfPages with
  | nil => simp [hp]
  | cons p rest => simp [hp]

theorem normalize_ocr_nonpdf (f : UploadedFile)
    (h : f.content_type ≠ "application/pdf") :
    normalize_ocr f = f.bytes.imageDecode := by
  unfold normalize_ocr
  rw [if_neg h]

theorem normalize_layout_nonpdf (f : UploadedFile)
    (h : f.content_type ≠ "application/pdf") :
    normalize_layout f = f.bytes.imageDecode := by
  unfold normalize_layout
  rw [if_neg h]

/-- C6: for an upload declared as PDF, the rasterizer is invoked for page
1 alone (`first_page=1, last_page=1`, i.e. `take 1` of the page list), the
normalized image is the first page on both endpoints, and the result of
normalization depends only on the first page — all subsequent pages are
ignored even if present. -/
theorem pdf_first_page_only (f : UploadedFile)
    (h : f.content_type = "application/pdf") :
    convert_from_bytes f.bytes 1 1 = f.bytes.pdfPages.take 1 ∧
    normalize_ocr f = (match f.bytes.pdfPages.head? with
      | none => Except.error "list index out of range"
      | some p => Except.ok p) ∧
    normalize_layout f = (match f.bytes.pdfPages.head? with
      | none => Except.error "list index out of range"
      | some p => Except.ok p) ∧
    (∀ g : UploadedFile, g.content_type = "application/pdf" →
      g.bytes.pdfPages.head? = f.bytes.pdfPages.head? →
      normalize_ocr g = normalize_ocr f ∧ normalize_layout g = normalize_layout f) := by
  refine ⟨by simp [convert_from_bytes], normalize_ocr_pdf f h,
    normalize_layout_pdf f h, ?_⟩
  intro g hg hheads
  rw [normalize_ocr_pdf g hg, normalize_ocr_pdf f h, hheads,
    normalize_layout_pdf g hg, normalize_layout_pdf f h, hheads]
  exact ⟨rfl, rfl⟩

/-- First page of a sample three-page PDF. -/
def page1 : RasterImage := { width := 600, height := 800, mode := "RGB" }

/-- Second page of a sample three-page PDF. -/
def page2 : RasterImage := { width := 600, height := 800, mode := "L" }

/-- Third page of a sample three-page PDF. -/
def page3 : RasterImage := { width := 300, height := 400, mode := "RGB" }

/-- A three-page PDF upload. -/
def pdfFile3 : UploadedFile :=
  { filename := "tri.pdf", content_type := "application/pdf"
    bytes := { pdfPages := [page1, page2, page3]
               imageDecode := Except.error "cannot identify image file" } }

/-- The same document cut down to its first page. -/
def pdfFile1 : UploadedFile :=
  { filename := "mono.pdf", content_type := "application/pdf"
    bytes := { pdfPages := [page1]
               imageDecode := Except.error "cannot identify image file" } }

/-- Witness for C6: the three-page PDF normalizes to its first page, and
identically to the single-page PDF holding only that page. -/
theorem pdf_first_page_only_witness :
    normalize_ocr pdfFile3 = Except.ok page1 ∧
    normalize_ocr pdfFile1 = normalize_ocr pdfFile3 ∧
    normalize_layout pdfFile1 = normalize_layout pdfFile3 :=
  ⟨(pdf_first_page_only pdfFile3 rfl).2.1,
   ((pdf_first_page_only pdfFile3 rfl).2.2.2 pdfFile1 rfl rfl).1,
   ((pdf_first_page_only pdfFile3 rfl).2.2.2 pdfFile1 rfl rfl).2⟩

/-- C9: on both endpoints the PDF rasterization branch is taken iff the
declared content type is exactly the string "application/pdf"; any other
declared content type (e.g. "application/x-pdf") sends the bytes directly
to the raster-image decoder. -/
theorem pdf_branch_exact_string (f : UploadedFile) :
    (f.content_type = "application/pdf" →
      normalize_ocr f = (match f.bytes.pdfPages.head? with
        | none => Except.error "list index out of range"
        | some p => Except.ok p) ∧
      normalize_layout f = (match f.bytes.pdfPages.head? with
        | none => Except.error "list index out of range"
        | some p => Except.ok p)) ∧
    (f.content_type ≠ "application/pdf" →
      normalize_ocr f = f.bytes.imageDecode ∧
      normalize_layout f = f.bytes.imageDecode) :=
  ⟨fun h => ⟨normalize_ocr_pdf f h, normalize_layout_pdf f h⟩,
   fun h => ⟨normalize_ocr_nonpdf f h, normalize_layout_nonpdf f h⟩⟩

/-- A PDF uploaded under the MIME variant "application/x-pdf": its pages
are readable as a PDF, but it is not decodable as a raster image. -/
def xpdfFile : UploadedFile :=
  { filename := "doc.pdf", content_type := "application/x-pdf"
    bytes := { pdfPages := [page1]
               imageDecode := Except.error "cannot identify image file" } }

/-- Witness for C9: the "application/x-pdf" upload takes the image-decode
path on both endpoints (and hence fails, despite being a readable PDF). -/
theorem pdf_branch_exact_string_witness :
    normalize_ocr xpdfFile = xpdfFile.bytes.imageDecode ∧
    normalize_layout xpdfFile = xpdfFile.bytes.imageDecode :=
  (pdf_branch_exact_string xpdfFile).2 (by decide)

/-! ## Claim C7: the `/ocr` error path -/

/-- C7: on `/ocr`, a failure at any stage — decode, plain-text
recognition, or structured recognition — produces exactly the server
error detail naming the failure message, the method "tesseract" and the
offending filename; and whenever the request fails, no success body (no
text, confidence or metadata) is returned. -/
theorem ocr_error_fail_closed (eng : TessEngine) (f : UploadedFile) :
    (∀ msg, normalize_ocr f = Except.error msg →
      perform_ocr eng f = Except.error ⟨msg, "tesseract", f.filename⟩) ∧
    (∀ img msg, normalize_ocr f = Except.ok img →
      eng.image_to_string img = Except.error msg →
      perform_ocr eng f = Except.error ⟨msg, "tesseract", f.filename⟩) ∧
    (∀ img text msg, normalize_ocr f = Except.ok img →
      eng.image_to_string img = Except.ok text →
      eng.image_to_data img = Except.error msg →
      perform_ocr eng f = Except.error ⟨msg, "tesseract", f.filename⟩) ∧
    (∀ d, perform_ocr eng f = Except.error d →
      ∀ s, perform_ocr eng f ≠ Except.ok s) := by
  refine ⟨?_, ?_, ?_, ?_⟩
  · intro msg h1
    unfold perform_ocr
    rw [h1]
  · intro img msg h1 h2
    unfold perform_ocr
    rw [h1]
    dsimp only
    rw [h2]
  · intro img text msg h1 h2 h3
    unfold perform_ocr
    rw [h1]
    dsimp only
    rw [h2]
    dsimp only
    rw [h3]
  · intro d hd s hs
    rw [hd] at hs
    exact Except.noConfusion hs

/-- An engine whose every invocation raises (e.g. the tesseract binary is
missing). -/
def failEngine : TessEngine :=
  { image_to_string := fun _ => Except.error "tesseract is not installed"
    image_to_data := fun _ => Except.error "tesseract is not installed" }

/-- An upload whose bytes are neither a decodable image nor a PDF. -/
def badFile : UploadedFile :=
  { filename := "broken.bin", content_type := "application/octet-stream"
    bytes := { pdfPages := [], imageDecode := Except.error "cannot identify image file" } }

/-- Witness for C7: a decode failure and an engine failure each produce
the full error detail. -/
theorem ocr_error_fail_closed_witness :
    perform_ocr sampleEngine badFile =
      Except.error ⟨"cannot identify image file", "tesseract", "broken.bin"⟩ ∧
    perform_ocr failEngine sampleFile =
      Except.error ⟨"tesseract is not installed", "tesseract", "doc.png"⟩ :=
  ⟨(ocr_error_fail_closed sampleEngine badFile).1 "cannot identify image file" rfl,
   (ocr_error_fail_closed failEngine sampleFile).2.1 sampleImage
     "tesseract is not installed" rfl rfl⟩

end OcrService
